import Mathlib

/-!
# Agent Sentinel — verification of the request-governance core

Shallow embedding, in Lean 4, of the parts of the `agent-sentinel` reverse
proxy that the frozen claims are about:

* the atomic spend accountant (`ratelimit/limiter.go`): the Lua
  check-and-reserve script, the adjust/refund script, and their Go wrappers;
* the output-token estimator (`ratelimit/tokens.go`):
  `EstimateOutputTokens` / `ExtractMaxOutputTokens`;
* the provider token-usage parser and hint injection
  (`internal/providers/gemini/gemini.go`);
* the non-streaming response reconciler
  (`internal/handlers/proxy.go`, `CreateModifyResponse`);
* the streaming SSE cost reconciler
  (`internal/stream/streaming.go`, `StreamingResponseReader`).

Modelling conventions:

* Go `float64` USD amounts and JSON numbers are modelled as `ℚ` (the claims
  under verification concern control flow, sums of buckets and comparisons,
  none of which hinge on binary floating-point rounding);
* a Redis hash is modelled as an association list whose update functions
  touch the first matching key, which coincides with hash behaviour on the
  duplicate-free lists Redis actually produces;
* Go functions that can dereference a nil pointer are modelled with an
  explicit `panic` outcome constructor;
* byte slices are modelled as `List Char`.
-/

namespace AgentSentinel

/-! ## JSON values (the `map[string]any` shape produced by `encoding/json`) -/

/-- A JSON value as decoded by Go's `encoding/json` into `any`:
numbers become `float64` (modelled as `ℚ`), objects become
`map[string]any` (modelled as association lists). -/
inductive Json where
  | null
  | bool (b : Bool)
  | num (q : ℚ)
  | str (s : String)
  | arr (xs : List Json)
  | obj (fields : List (String × Json))
deriving Repr

/-- `body[key]` on a Go map: the value bound to `key`, if any.
On the duplicate-free lists a decoded JSON object yields, taking the
first matching entry is exactly map lookup. -/
def getField (fields : List (String × Json)) (key : String) : Option Json :=
  match fields with
  | [] => none
  | f :: rest => if f.1 = key then some f.2 else getField rest key

/-- `body[key] = v` on a Go map: replace the binding if present, else add it. -/
def setField (fields : List (String × Json)) (key : String) (v : Json) : List (String × Json) :=
  match fields with
  | [] => [(key, v)]
  | f :: rest => if f.1 = key then (key, v) :: rest else f :: setField rest key v

/-- `_, ok := body[key]` on a Go map. -/
def hasField (fields : List (String × Json)) (key : String) : Bool :=
  (getField fields key).isSome

/-- Go's `int(v)` conversion of a `float64`: truncation toward zero. -/
def goIntCast (q : ℚ) : Int :=
  if 0 ≤ q then q.floor else q.ceil

/-! ## Pricing and cost (`internal/ratelimit/pricing.go`) -/

/-- Per-million-token USD prices (`ratelimit.Pricing`). -/
structure Pricing where
  InputPrice : ℚ
  OutputPrice : ℚ
deriving Repr, DecidableEq

/-- `ratelimit.CalculateCost`:
`(inputTokens/1e6)*InputPrice + (outputTokens/1e6)*OutputPrice`. -/
def CalculateCost (inputTokens outputTokens : Int) (pricing : Pricing) : ℚ :=
  (inputTokens : ℚ) / 1000000 * pricing.InputPrice
    + (outputTokens : ℚ) / 1000000 * pricing.OutputPrice

/-! ## The spend hash and the two Lua scripts (`ratelimit/limiter.go`) -/

/-- The Redis hash `spend:<tenant>` plus its TTL: fields are minute-bucket
timestamps (`tonumber`ed), values are USD floats.  `expiry = some n` models
an `EXPIRE` of `n` seconds having been set on the key. -/
structure SpendState where
  buckets : List (Int × ℚ)
  expiry : Option Nat
deriving Repr, DecidableEq

/-- The Lua loop summing all fields with `bucketTime >= oneHourAgo`. -/
def windowSum (cutoff : Int) : List (Int × ℚ) → ℚ
  | [] => 0
  | b :: rest => (if cutoff ≤ b.1 then b.2 else 0) + windowSum cutoff rest

/-- The value stored at field `f` of the hash (`0` when the field is absent,
matching `HINCRBYFLOAT` semantics of starting from zero). -/
def bucketVal (f : Int) : List (Int × ℚ) → ℚ
  | [] => 0
  | b :: rest => if b.1 = f then b.2 else bucketVal f rest

/-- `HINCRBYFLOAT key f v`: increment the field `f` by `v`, creating it at
`v` when absent. -/
def hincrbyfloat (fields : List (Int × ℚ)) (f : Int) (v : ℚ) : List (Int × ℚ) :=
  match fields with
  | [] => [(f, v)]
  | b :: rest => if b.1 = f then (b.1, b.2 + v) :: rest else b :: hincrbyfloat rest f v

/-- Result of the check-and-reserve script (`ratelimit.CheckLimitResult`). -/
structure CheckLimitResult where
  Allowed : Bool
  CurrentSpend : ℚ
  Limit : ℚ
  Remaining : ℚ
deriving Repr, DecidableEq

/-- The Redis server time, seconds part of `TIME`. -/
abbrev RedisNow := Nat

/-- `math.floor(now / 60) * 60` of the Lua script (`now` is non-negative). -/
def minuteBucket (now : RedisNow) : Int :=
  ((now / 60) * 60 : Nat)

/-- `checkLimitAndIncrementLUA` (`ratelimit/limiter.go`), executed atomically
by Redis; one application of this function is one atomic script run.
Inputs: the spend hash, the value of `limit:<tenant>` (`none` when the key is
absent), the process default limit, the Redis clock, and the estimated cost.
Steps, in script order: resolve the limit; sum the buckets of the last hour;
`allowed = currentSpend + estimatedCost <= limit`;
`remaining = max(0, limit - currentSpend)`; on the allow branch only,
`HINCRBYFLOAT` the current-minute bucket by the estimate and `EXPIRE 7200`;
finally `HDEL` every bucket older than one hour (the freshly written
current-minute bucket is never older than one hour, so deleting from the
updated hash equals deleting the stale fields of the original read). -/
def checkLimitAndIncrementScript (st : SpendState) (limitVal : Option ℚ)
    (defaultLimit : ℚ) (now : RedisNow) (estimatedCost : ℚ) :
    CheckLimitResult × SpendState :=
  let mb := minuteBucket now
  let oneHourAgo := mb - 3600
  let limit := limitVal.getD defaultLimit
  let currentSpend := windowSum oneHourAgo st.buckets
  let newSpend := currentSpend + estimatedCost
  let allowed : Bool := decide (newSpend ≤ limit)
  let remaining := max 0 (limit - currentSpend)
  let st1 : SpendState :=
    if allowed then
      { buckets := hincrbyfloat st.buckets mb estimatedCost, expiry := some 7200 }
    else st
  let st2 : SpendState :=
    { st1 with buckets := st1.buckets.filter (fun b => decide (oneHourAgo ≤ b.1)) }
  (⟨allowed, currentSpend, limit, remaining⟩, st2)

/-- `adjustCostLUA` (`ratelimit/limiter.go`): add `actual - estimate` to the
current-minute bucket and refresh the 7200 s expiry; a zero delta leaves the
hash untouched. -/
def adjustCostScript (st : SpendState) (now : RedisNow) (estimate actual : ℚ) :
    SpendState :=
  let mb := minuteBucket now
  let adjustment := actual - estimate
  if adjustment ≠ 0 then
    { buckets := hincrbyfloat st.buckets mb adjustment, expiry := some 7200 }
  else st

/-! ## The Go wrappers (`ratelimit.RateLimiter` methods) -/

/-- The non-nil part of a `*ratelimit.RateLimiter`: `clientPresent` models
`r.client != nil`. -/
structure RateLimiter where
  clientPresent : Bool
  defaultLimit : ℚ
deriving Repr, DecidableEq

/-- The store as seen by one wrapper call: either the script invocation
errors (network failure, misconfiguration, ...) leaving the state alone, or
it runs atomically against the current limit value, clock and spend hash. -/
inductive Store where
  | unreachable (st : SpendState)
  | reachable (limitVal : Option ℚ) (now : RedisNow) (st : SpendState)
deriving Repr, DecidableEq

/-- The spend hash held by the store when the call begins. -/
def Store.state : Store → SpendState
  | .unreachable st => st
  | .reachable _ _ st => st

/-- Outcome of `RateLimiter.CheckLimitAndIncrement`: either the Go function
panics, or it returns a `CheckLimitResult`, the store being left in the
given state. -/
inductive CheckOutcome where
  | panicked
  | result (res : CheckLimitResult) (st : SpendState)
deriving Repr, DecidableEq

/-- `RateLimiter.CheckLimitAndIncrement` (`ratelimit/limiter.go`).
The receiver is `Option RateLimiter`; `none` models a nil
`*ratelimit.RateLimiter`.  The Go code guards with
`if r == nil || r.client == nil` and intends to fail open, but the fail-open
branch builds its result from `r.defaultLimit`: on a nil receiver this is a
nil-pointer dereference, hence `CheckOutcome.panicked`.  On a script error it
fails open with `allowed=true, current=0, limit=default, remaining=default`;
otherwise it returns the script's result. -/
def CheckLimitAndIncrement (r : Option RateLimiter) (estimatedCost : ℚ)
    (store : Store) : CheckOutcome :=
  match r with
  | none => CheckOutcome.panicked
  | some rl =>
    if rl.clientPresent = false then
      CheckOutcome.result ⟨true, 0, rl.defaultLimit, rl.defaultLimit⟩ store.state
    else
      match store with
      | .unreachable st =>
        CheckOutcome.result ⟨true, 0, rl.defaultLimit, rl.defaultLimit⟩ st
      | .reachable limitVal now st =>
        let (res, st2) := checkLimitAndIncrementScript st limitVal rl.defaultLimit now estimatedCost
        CheckOutcome.result res st2

/-- `RateLimiter.AdjustCost` (`ratelimit/limiter.go`): the returned Go
`error` (always `nil` — Redis errors are only logged) paired with the store
state after the call.  A nil receiver or nil client returns immediately
without touching any field, so no panic is possible here. -/
def AdjustCost (r : Option RateLimiter) (estimate actual : ℚ) (store : Store) :
    Option String × SpendState :=
  match r with
  | none => (none, store.state)
  | some rl =>
    if rl.clientPresent = false then (none, store.state)
    else
      match store with
      | .unreachable st => (none, st)
      | .reachable _ now st => (none, adjustCostScript st now estimate actual)

/-- `RateLimiter.RefundEstimate` (`ratelimit/limiter.go`): runs the same
adjust script with `actual = 0`. -/
def RefundEstimate (r : Option RateLimiter) (estimate : ℚ) (store : Store) :
    Option String × SpendState :=
  match r with
  | none => (none, store.state)
  | some rl =>
    if rl.clientPresent = false then (none, store.state)
    else
      match store with
      | .unreachable st => (none, st)
      | .reachable _ now st => (none, adjustCostScript st now estimate 0)

/-! ## Output-token estimation (`ratelimit/tokens.go`) -/

/-- `ratelimit.OutputMultiplier`. -/
def OutputMultiplier : Int := 10

/-- `ratelimit.MinOutputEstimate`. -/
def MinOutputEstimate : Int := 100

/-- `ratelimit.MaxOutputEstimate`. -/
def MaxOutputEstimate : Int := 4096

/-- `ratelimit.EstimateOutputTokens`: use `maxFromRequest` capped at 4096
when positive, otherwise `inputTokens * 10` clamped to `[100, 4096]`. -/
def EstimateOutputTokens (inputTokens maxFromRequest : Int) : Int :=
  if maxFromRequest > 0 then
    if maxFromRequest > MaxOutputEstimate then MaxOutputEstimate
    else maxFromRequest
  else
    let estimated := inputTokens * OutputMultiplier
    if estimated < MinOutputEstimate then MinOutputEstimate
    else if estimated > MaxOutputEstimate then MaxOutputEstimate
    else estimated

/-- One `if v, ok := data[k].(float64); ok && v > 0` step of
`ExtractMaxOutputTokens`: the field's value as `int(v)` when it is a number
greater than zero, `none` otherwise (absent, wrong type, or non-positive). -/
def positiveNumField (data : List (String × Json)) (key : String) : Option Int :=
  match getField data key with
  | some (Json.num v) => if 0 < v then some (goIntCast v) else none
  | _ => none

/-- `ratelimit.ExtractMaxOutputTokens`: first positive maximum among
`max_tokens`, `max_completion_tokens`, then `generationConfig.maxOutputTokens`;
`0` when none is present and positive. -/
def ExtractMaxOutputTokens (data : List (String × Json)) : Int :=
  match positiveNumField data "max_tokens" with
  | some t => t
  | none =>
    match positiveNumField data "max_completion_tokens" with
    | some t => t
    | none =>
      match getField data "generationConfig" with
      | some (Json.obj config) =>
        match positiveNumField config "maxOutputTokens" with
        | some t => t
        | none => 0
      | _ => 0

/-! ## Provider capability (`internal/providers/...`) -/

/-- `providers.TokenUsage` (= `parser.TokenUsage`). -/
structure TokenUsage where
  InputTokens : Int
  OutputTokens : Int
  Found : Bool
deriving Repr, DecidableEq

/-- One `if t, ok := usage[k].(float64); ok { n = int(t) }` step of a
provider's `ParseTokenUsage`: the token count read from the field, `0`
when it is absent or not a number. -/
def tokenField (usage : List (String × Json)) (key : String) : Int :=
  match getField usage key with
  | some (Json.num t) => goIntCast t
  | _ => 0

/-- `Provider.ParseTokenUsage` (`internal/providers/gemini/gemini.go`,
cited lines): read `body["usage"]` as an object, take its `input_tokens`
and `output_tokens`, and report `Found` only when at least one of the two
counts is positive; any other shape yields the zero `TokenUsage`. -/
def ParseTokenUsage (body : List (String × Json)) : TokenUsage :=
  match getField body "usage" with
  | some (Json.obj usage) =>
    let inputTokens := tokenField usage "input_tokens"
    let outputTokens := tokenField usage "output_tokens"
    if inputTokens > 0 ∨ outputTokens > 0 then
      ⟨inputTokens, outputTokens, true⟩
    else ⟨0, 0, false⟩
  | _ => ⟨0, 0, false⟩

/-- `openai.Provider.ParseTokenUsage` (`internal/providers/openai/openai.go`):
same logic over `prompt_tokens` / `completion_tokens`. -/
def OpenAIParseTokenUsage (body : List (String × Json)) : TokenUsage :=
  match getField body "usage" with
  | some (Json.obj usage) =>
    let inputTokens := tokenField usage "prompt_tokens"
    let outputTokens := tokenField usage "completion_tokens"
    if inputTokens > 0 ∨ outputTokens > 0 then
      ⟨inputTokens, outputTokens, true⟩
    else ⟨0, 0, false⟩
  | _ => ⟨0, 0, false⟩

/-- `gemini.Provider.InjectHint` (`internal/providers/gemini/gemini.go`):
with a non-empty hint and a body whose `contents` is a non-empty array whose
first element is an object, prepend the part `{text: hint}` to that
element's `parts` (treating a missing or non-array `parts` as empty) and
report success; otherwise leave the body alone and report failure.
Returns Go's `bool` alongside the (possibly mutated) body. -/
def InjectHint (body : List (String × Json)) (hint : String) :
    Bool × List (String × Json) :=
  if hint = "" then (false, body)
  else
    match getField body "contents" with
    | some (Json.arr contents) =>
      match contents with
      | [] => (false, body)
      | first :: rest =>
        match first with
        | Json.obj firstObj =>
          let parts :=
            match getField firstObj "parts" with
            | some (Json.arr ps) => ps
            | _ => []
          let hintPart := Json.obj [("text", Json.str hint)]
          let firstObj2 := setField firstObj "parts" (Json.arr (hintPart :: parts))
          (true, setField body "contents" (Json.arr (Json.obj firstObj2 :: rest)))
        | _ => (false, body)
    | _ => (false, body)

/-! ## JSON re-serialization (`encoding/json.Marshal` as used by the
loop-detection middleware; only its output length is observable in the
claims, via `Content-Length`). -/

/-- Escape a string for JSON output (quote and backslash). -/
def escapeJsonChar (c : Char) : List Char :=
  if c = '"' then ['\\', '"']
  else if c = '\\' then ['\\', '\\']
  else [c]

/-- The serialized form of a JSON string literal. -/
def marshalString (s : String) : List Char :=
  '"' :: (s.toList.flatMap escapeJsonChar) ++ ['"']

mutual

/-- Compact JSON serialization of a value (object fields in stored order). -/
def marshal : Json → List Char
  | Json.null => "null".toList
  | Json.bool true => "true".toList
  | Json.bool false => "false".toList
  | Json.num q => (toString q.num).toList ++ (if q.den = 1 then [] else '/' :: (toString q.den).toList)
  | Json.str s => marshalString s
  | Json.arr xs => '[' :: marshalList xs ++ [']']
  | Json.obj fs => '\x7b' :: marshalFields fs ++ ['\x7d']

/-- Serialize array elements, comma-separated. -/
def marshalList : List Json → List Char
  | [] => []
  | [x] => marshal x
  | x :: rest => marshal x ++ ',' :: marshalList rest

/-- Serialize object fields, comma-separated. -/
def marshalFields : List (String × Json) → List Char
  | [] => []
  | [f] => marshalString f.1 ++ ':' :: marshal f.2
  | f :: rest => marshalString f.1 ++ ':' :: marshal f.2 ++ ',' :: marshalFields rest

end

/-! ## Loop-detection hint injection step (`internal/middleware/loop_detect.go`) -/

/-- The body-mutation step of the `LoopDetection` middleware once the sidecar
has reported a loop (cited lines): call the provider's `InjectHint`; on
success re-serialize the body, replace the request body with those bytes and
set `Content-Length` (and `r.ContentLength`) to their length; on failure the
request is forwarded untouched (`none`). -/
def loopDetectInjectStep (body : List (String × Json)) (hint : String) :
    Option (List (String × Json) × Nat) :=
  let (ok, newBody) := InjectHint body hint
  if ok then
    let updated := marshal (Json.obj newBody)
    some (newBody, updated.length)
  else none

/-! ## Non-streaming response reconciler
(`internal/handlers/proxy.go`, `CreateModifyResponse`) -/

/-- A store mutation handed to the Bounded Async Runner by the reconciler.
`noStoreMutation` models the scheduled closure that ends up calling neither
`AdjustCost` nor `RefundEstimate` (the estimate is kept). -/
inductive ReconcilerAction where
  | adjustCost (estimate actual : ℚ)
  | refundEstimate (estimate : ℚ)
  | noStoreMutation
deriving Repr, DecidableEq

/-- What `CreateModifyResponse`'s handler did to one upstream response. -/
inductive ModifyOutcome where
  /-- Returned before any reconciliation: body untouched, nothing scheduled. -/
  | passthrough
  /-- Streaming content type: the body was wrapped in a
  `StreamingResponseReader`; nothing is scheduled here. -/
  | wrapStream
  /-- Non-streaming JSON body: a background task carrying this action was
  scheduled via `async.Run`. -/
  | schedule (a : ReconcilerAction)
deriving Repr, DecidableEq

/-- The response body as the reconciler sees it: `none` when reading the
body failed or `json.Unmarshal` into `map[string]any` failed, `some data`
when it decoded to the JSON object `data`. -/
abbrev BodyParse := Option (List (String × Json))

/-- `handlers.CreateModifyResponse` (`internal/handlers/proxy.go`), the
per-response handler.  In source order: a nil limiter returns immediately;
an empty tenant ID or a zero estimate (no reservation in the request
context) returns immediately; a streaming content type wraps the body and
returns; a body that fails to read or to parse as JSON returns with the
estimate kept; otherwise exactly one background task is scheduled —
`AdjustCost(estimate, actual)` when the provider found a usage report,
`RefundEstimate` when it did not and the body has a top-level `error` field
or the status is `>= 400`, and a no-op closure otherwise. -/
def CreateModifyResponse (limiterPresent : Bool) (tenantID : String)
    (estimate : ℚ) (pricing : Pricing) (isStreaming : Bool)
    (statusCode : Int) (bodyParse : BodyParse)
    (parseUsage : List (String × Json) → TokenUsage) : ModifyOutcome :=
  if limiterPresent = false then ModifyOutcome.passthrough
  else if tenantID = "" ∨ estimate = 0 then ModifyOutcome.passthrough
  else if isStreaming then ModifyOutcome.wrapStream
  else
    match bodyParse with
    | none => ModifyOutcome.passthrough
    | some data =>
      let isError : Bool := hasField data "error" || decide (statusCode ≥ 400)
      let usage := parseUsage data
      ModifyOutcome.schedule
        (if usage.Found then
          ReconcilerAction.adjustCost estimate
            (CalculateCost usage.InputTokens usage.OutputTokens pricing)
        else if isError then ReconcilerAction.refundEstimate estimate
        else ReconcilerAction.noStoreMutation)

/-! ## Streaming response reader (`internal/stream/streaming.go`) -/

/-- The configuration a `StreamingResponseReader` is built with
(`NewStreamingResponseReader`): `unmarshalObj` models
`json.Unmarshal(dataPart, &chunk)` into a `map[string]any` (failing on
non-object payloads), `parseUsage` is the provider callback passed to the
constructor, `limiterPresent` models `s.limiter != nil`. -/
structure StreamCfg where
  unmarshalObj : List Char → Option (List (String × Json))
  parseUsage : List (String × Json) → TokenUsage
  tenantID : String
  estimate : ℚ
  pricing : Pricing
  limiterPresent : Bool

/-- The mutable fields of `StreamingResponseReader` relevant to cost
finalization, plus `scheduled`: the trace of store mutations handed to
`async.Run` so far (each entry records what the scheduled closure performs,
evaluated against the reader state at scheduling time; in the executions the
claims are about, no further frame arrives between the scheduling and the
run of the closure). -/
structure ReaderState where
  buffer : List Char
  usage : TokenUsage
  hasError : Bool
  finalized : Bool
  scheduled : List ReconcilerAction
deriving Repr

/-- The state of a freshly constructed reader. -/
def initialReaderState : ReaderState :=
  ⟨[], ⟨0, 0, false⟩, false, false, []⟩

/-- `StreamingResponseReader.finalizeCost`: with a nil limiter do nothing;
otherwise hand a task to `async.Run` that calls
`AdjustCost(tenant, estimate, CalculateCost(usage))` when a usage report was
found, `RefundEstimate(tenant, estimate)` when none was found but the stream
carried an `error` chunk, and nothing otherwise.  Note that it does NOT set
`s.finalized`. -/
def finalizeCost (cfg : StreamCfg) (st : ReaderState) : ReaderState :=
  if cfg.limiterPresent = false then st
  else
    let act :=
      if st.usage.Found then
        ReconcilerAction.adjustCost cfg.estimate
          (CalculateCost st.usage.InputTokens st.usage.OutputTokens cfg.pricing)
      else if st.hasError then ReconcilerAction.refundEstimate cfg.estimate
      else ReconcilerAction.noStoreMutation
    { st with scheduled := st.scheduled ++ [act] }

/-- `bytes.TrimSpace` (ASCII whitespace on both ends). -/
def trimSpace (l : List Char) : List Char :=
  ((l.dropWhile Char.isWhitespace).reverse.dropWhile Char.isWhitespace).reverse

/-- The max-merge of usage reports across chunks
(`if usage.InputTokens > s.usage.InputTokens ...`). -/
def mergeUsage (old new : TokenUsage) : TokenUsage :=
  ⟨if new.InputTokens > old.InputTokens then new.InputTokens else old.InputTokens,
   if new.OutputTokens > old.OutputTokens then new.OutputTokens else old.OutputTokens,
   true⟩

/-- `StreamingResponseReader.parseSSELine`: trim the frame; ignore it unless
it starts with `data: `; a literal `[DONE]` payload triggers
`finalizeCost` (without touching `finalized`); otherwise JSON-decode the
payload (ignoring it on failure), flag `hasError` when the chunk has an
`error` field, and max-merge any usage report the provider finds. -/
def parseSSELine (cfg : StreamCfg) (st : ReaderState) (line : List Char) :
    ReaderState :=
  let line := trimSpace line
  if line = [] then st
  else if ("data: ".toList).isPrefixOf line = false then st
  else
    let dataPart := line.drop 6
    if dataPart = "[DONE]".toList then finalizeCost cfg st
    else
      match cfg.unmarshalObj dataPart with
      | none => st
      | some chunk =>
        let st := if hasField chunk "error" then { st with hasError := true } else st
        let usage := cfg.parseUsage chunk
        if usage.Found then { st with usage := mergeUsage st.usage usage } else st

/-- `bytes.Index(buf, pat)`: index of the first occurrence of `pat`. -/
def indexOfSub (pat : List Char) : List Char → Option Nat
  | [] => if pat = [] then some 0 else none
  | c :: rest =>
    if pat.isPrefixOf (c :: rest) then some 0
    else (indexOfSub pat rest).map (· + 1)

/-- The frame-boundary search of `StreamingResponseReader.processChunk`:
prefer a `\n\n` boundary, then `\r\n\r\n`, then a single `\n` that is not
the last byte and not followed by another `\n`; `none` when the buffer holds
no complete frame yet. -/
def findFrameEnd (buf : List Char) : Option Nat :=
  match indexOfSub ['\n', '\n'] buf with
  | some idx => some (idx + 2)
  | none =>
    match indexOfSub ['\r', '\n', '\r', '\n'] buf with
    | some idx => some (idx + 4)
    | none =>
      match indexOfSub ['\n'] buf with
      | some idx =>
        if idx + 1 < buf.length ∧ buf.getD (idx + 1) ' ' ≠ '\n' then some (idx + 1)
        else none
      | none => none

/-- The frame-extraction loop of `processChunk`, written with explicit fuel.
Every extracted frame is at least one byte long, so a fuel equal to the
buffer length makes the fuel-out case unreachable and the function equal to
the Go loop. -/
def processFrames (cfg : StreamCfg) : Nat → ReaderState → ReaderState
  | 0, st => st
  | fuel + 1, st =>
    match findFrameEnd st.buffer with
    | none => st
    | some lineEnd =>
      let line := st.buffer.take lineEnd
      let st := { st with buffer := st.buffer.drop lineEnd }
      processFrames cfg fuel (parseSSELine cfg st line)

/-- `StreamingResponseReader.processChunk`: append the bytes read from
upstream to the rolling buffer, then extract and parse every complete
frame. -/
def processChunk (cfg : StreamCfg) (st : ReaderState) (data : List Char) :
    ReaderState :=
  let st := { st with buffer := st.buffer ++ data }
  processFrames cfg st.buffer.length st

/-- The `err == io.EOF && !s.finalized` branch of
`StreamingResponseReader.Read`: parse the residual buffer as a final frame,
finalize, and mark the reader finalized. -/
def readEOF (cfg : StreamCfg) (st : ReaderState) : ReaderState :=
  if st.finalized then st
  else
    let st := if st.buffer ≠ [] then parseSSELine cfg st st.buffer else st
    { finalizeCost cfg st with finalized := true }

/-- `StreamingResponseReader.Close`: identical finalization guard (the
underlying reader's `Close` has no observable effect here). -/
def closeReader (cfg : StreamCfg) (st : ReaderState) : ReaderState :=
  readEOF cfg st

/-- One observable event in the life of the reader: a successful `Read` of
`data` bytes, a final `Read` returning data together with `io.EOF`, a `Read`
returning only `io.EOF`, or a `Close` call. -/
inductive StreamEvent where
  | chunk (data : List Char)
  | chunkEOF (data : List Char)
  | eof
  | close

/-- The reader's reaction to one event (`Read` / `Close`). -/
def streamStep (cfg : StreamCfg) (st : ReaderState) : StreamEvent → ReaderState
  | .chunk data => processChunk cfg st data
  | .chunkEOF data => readEOF cfg (processChunk cfg st data)
  | .eof => readEOF cfg st
  | .close => closeReader cfg st

/-- Run the reader over a sequence of events from the initial state. -/
def runStream (cfg : StreamCfg) (events : List StreamEvent) : ReaderState :=
  events.foldl (streamStep cfg) initialReaderState

/-! ## Observation helpers and concrete instances used by the theorems -/

/-- Whether a scheduled action is an `AdjustCost` store mutation. -/
def isAdjustCost : ReconcilerAction → Bool
  | .adjustCost _ _ => true
  | _ => false

/-- The text of `contents[0].parts[i].text` of a request body, if present
(the observation the Gemini injection scenario is phrased in). -/
def partText (body : List (String × Json)) (i : Nat) : Option String :=
  match getField body "contents" with
  | some (Json.arr (first :: _)) =>
    match first with
    | Json.obj firstObj =>
      match getField firstObj "parts" with
      | some (Json.arr ps) =>
        match ps.get? i with
        | some (Json.obj p) =>
          match getField p "text" with
          | some (Json.str s) => some s
          | _ => none
        | _ => none
      | _ => none
    | _ => none
  | _ => none

/-- The claim-side reading of "the body carries a positive explicit maximum
in field `key`": the field is present as a number greater than zero. -/
def numFieldPositive (data : List (String × Json)) (key : String) : Prop :=
  ∃ q : ℚ, getField data key = some (Json.num q) ∧ 0 < q

/-- The claim-side reading of "the body carries a positive explicit maximum
in `max_tokens`, `max_completion_tokens`, or
`generationConfig.maxOutputTokens`". -/
def carriesPositiveMax (data : List (String × Json)) : Prop :=
  numFieldPositive data "max_tokens"
    ∨ numFieldPositive data "max_completion_tokens"
    ∨ ∃ config, getField data "generationConfig" = some (Json.obj config)
        ∧ numFieldPositive config "maxOutputTokens"

/-- Scope restriction for the token-maximum claim: whenever one of the three
maximum fields is present as a number, that number is an integer (token
maxima are integral in every provider API; this rules out degenerate
fractional values such as `max_tokens = 0.5`, about which the claim says
nothing and on which Go's `int(v)` truncation would kick in). -/
def maxFieldsIntegral (data : List (String × Json)) : Prop :=
  (∀ q : ℚ, getField data "max_tokens" = some (Json.num q) → ∃ n : ℤ, q = n)
  ∧ (∀ q : ℚ, getField data "max_completion_tokens" = some (Json.num q) → ∃ n : ℤ, q = n)
  ∧ (∀ (config : List (String × Json)) (q : ℚ),
      getField data "generationConfig" = some (Json.obj config) →
      getField config "maxOutputTokens" = some (Json.num q) → ∃ n : ℤ, q = n)

/-- The request body of end-to-end scenario 6 / the Gemini injection claim:
`\x7b"contents":[\x7b"parts":[\x7b"text":"X"\x7d]\x7d]\x7d`. -/
def geminiScenarioBody : List (String × Json) :=
  [("contents", Json.arr [Json.obj [("parts", Json.arr [Json.obj [("text", Json.str "X")]])]])]

/-- `geminiScenarioBody` after a successful `InjectHint` with `hint`. -/
def geminiScenarioInjected (hint : String) : List (String × Json) :=
  [("contents", Json.arr [Json.obj [("parts",
    Json.arr [Json.obj [("text", Json.str hint)], Json.obj [("text", Json.str "X")]])]])]

/-- The default intervention hint
(`"System: break the loop and respond with a new approach."`). -/
def defaultHint : String := "System: break the loop and respond with a new approach."

/-- The JSON payload of the usage frame of end-to-end scenario 5. -/
def scenario5Payload : List Char :=
  "\x7b\"usage\": \x7b\"prompt_tokens\": 2, \"completion_tokens\": 3\x7d\x7d".toList

/-- `json.Unmarshal` restricted to the payloads occurring in scenario 5: on
those exact bytes it returns the object `json.Unmarshal` would return, and
it fails on anything else (no other payload is ever decoded in the
scenario). -/
def scenario5Unmarshal (s : List Char) : Option (List (String × Json)) :=
  if s = scenario5Payload then
    some [("usage", Json.obj [("prompt_tokens", Json.num 2), ("completion_tokens", Json.num 3)])]
  else none

/-- The reader configuration of scenario 5: an OpenAI-shaped usage parser,
tenant `t-stream`, a 1 USD reservation, unit pricing, limiter present. -/
def scenario5Cfg : StreamCfg :=
  ⟨scenario5Unmarshal, OpenAIParseTokenUsage, "t-stream", 1, ⟨1, 1⟩, true⟩

/-- The SSE bytes of end-to-end scenario 5:
`data: \x7b"usage": \x7b"prompt_tokens": 2, "completion_tokens": 3\x7d\x7d\n\ndata: [DONE]\n\n`. -/
def scenario5Bytes : List Char :=
  "data: \x7b\"usage\": \x7b\"prompt_tokens\": 2, \"completion_tokens\": 3\x7d\x7d\n\ndata: [DONE]\n\n".toList

/-! ## Helper lemmas: algebra of the spend hash -/

theorem windowSum_filter (cutoff : Int) (p : Int × ℚ → Bool)
    (hp : ∀ b : Int × ℚ, cutoff ≤ b.1 → p b = true) (bs : List (Int × ℚ)) :
    windowSum cutoff (bs.filter p) = windowSum cutoff bs := by
  induction bs with
  | nil => rfl
  | cons b rest ih =>
    simp only [List.filter_cons]
    by_cases h : p b = true
    · simp [windowSum, h, ih]
    · have hb : ¬ cutoff ≤ b.1 := fun e => h (hp b e)
      simp [windowSum, h, hb, ih]

theorem bucketVal_filter (f : Int) (p : Int × ℚ → Bool)
    (hp : ∀ b : Int × ℚ, b.1 = f → p b = true) (bs : List (Int × ℚ)) :
    bucketVal f (bs.filter p) = bucketVal f bs := by
  induction bs with
  | nil => rfl
  | cons b rest ih =>
    simp only [List.filter_cons]
    by_cases h : p b = true
    · by_cases hf : b.1 = f <;> simp [bucketVal, h, hf, ih]
    · have hf : b.1 ≠ f := fun e => h (hp b e)
      simp [bucketVal, h, hf, ih]

theorem bucketVal_hincrbyfloat (f : Int) (v : ℚ) (bs : List (Int × ℚ)) :
    bucketVal f (hincrbyfloat bs f v) = bucketVal f bs + v := by
  induction bs with
  | nil => simp [hincrbyfloat, bucketVal]
  | cons b rest ih =>
    by_cases hf : b.1 = f
    · simp [hincrbyfloat, bucketVal, hf]
    · simp [hincrbyfloat, bucketVal, hf, ih]

theorem windowSum_hincrbyfloat (cutoff f : Int) (hcf : cutoff ≤ f) (v : ℚ)
    (bs : List (Int × ℚ)) :
    windowSum cutoff (hincrbyfloat bs f v) = windowSum cutoff bs + v := by
  induction bs with
  | nil => simp [hincrbyfloat, windowSum, hcf]
  | cons b rest ih =>
    by_cases hf : b.1 = f
    · have hcb : cutoff ≤ b.1 := hf ▸ hcf
      simp only [hincrbyfloat, if_pos hf, windowSum, if_pos hcb]
      ring
    · simp only [hincrbyfloat, if_neg hf, windowSum, ih]
      ring

theorem minuteBucket_cutoff_le (now : RedisNow) :
    minuteBucket now - 3600 ≤ minuteBucket now := by omega

theorem checkScript_allowed_eq (st : SpendState) (limitVal : Option ℚ) (defaultLimit : ℚ)
    (now : RedisNow) (est : ℚ)
    (hc : windowSum (minuteBucket now - 3600) st.buckets + est ≤ limitVal.getD defaultLimit) :
    checkLimitAndIncrementScript st limitVal defaultLimit now est
      = (⟨true, windowSum (minuteBucket now - 3600) st.buckets, limitVal.getD defaultLimit,
          max 0 (limitVal.getD defaultLimit - windowSum (minuteBucket now - 3600) st.buckets)⟩,
         ⟨(hincrbyfloat st.buckets (minuteBucket now) est).filter
            (fun b => decide (minuteBucket now - 3600 ≤ b.1)), some 7200⟩) := by
  have hd : (decide (windowSum (minuteBucket now - 3600) st.buckets + est
      ≤ limitVal.getD defaultLimit)) = true := decide_eq_true hc
  simp only [checkLimitAndIncrementScript, hd, if_true]

theorem checkScript_denied_eq (st : SpendState) (limitVal : Option ℚ) (defaultLimit : ℚ)
    (now : RedisNow) (est : ℚ)
    (hc : ¬ (windowSum (minuteBucket now - 3600) st.buckets + est ≤ limitVal.getD defaultLimit)) :
    checkLimitAndIncrementScript st limitVal defaultLimit now est
      = (⟨false, windowSum (minuteBucket now - 3600) st.buckets, limitVal.getD defaultLimit,
          max 0 (limitVal.getD defaultLimit - windowSum (minuteBucket now - 3600) st.buckets)⟩,
         ⟨st.buckets.filter (fun b => decide (minuteBucket now - 3600 ≤ b.1)), st.expiry⟩) := by
  have hd : (decide (windowSum (minuteBucket now - 3600) st.buckets + est
      ≤ limitVal.getD defaultLimit)) = false := decide_eq_false hc
  simp only [checkLimitAndIncrementScript, hd, Bool.false_eq_true, if_false]

/-! ## The claims -/

/-- **C2** — For every tenant, bucket state, and non-negative estimated
cost, the check-and-reserve script (one atomic application of
`checkLimitAndIncrementScript`): reports as current spend the sum of the
buckets inside the one-hour window; resolves the limit from the store with
the default as fallback; allows iff `current_spend + estimated_cost ≤ limit`
(equality allowed); reports `remaining = max(0, limit - current_spend)`
computed before the increment; and only on the allow branch adds the
estimate to the current-minute bucket (raising the windowed sum by exactly
the estimate) and refreshes the 7200-second expiry, while on the deny
branch both the windowed sum and the expiry are untouched. -/
theorem C2_check_and_reserve_semantics (st : SpendState) (limitVal : Option ℚ)
    (defaultLimit : ℚ) (now : RedisNow) (est : ℚ) (hest : 0 ≤ est) :
    (checkLimitAndIncrementScript st limitVal defaultLimit now est).1.CurrentSpend
        = windowSum (minuteBucket now - 3600) st.buckets
    ∧ (checkLimitAndIncrementScript st limitVal defaultLimit now est).1.Limit
        = limitVal.getD defaultLimit
    ∧ ((checkLimitAndIncrementScript st limitVal defaultLimit now est).1.Allowed = true
        ↔ windowSum (minuteBucket now - 3600) st.buckets + est ≤ limitVal.getD defaultLimit)
    ∧ (checkLimitAndIncrementScript st limitVal defaultLimit now est).1.Remaining
        = max 0 (limitVal.getD defaultLimit - windowSum (minuteBucket now - 3600) st.buckets)
    ∧ ((checkLimitAndIncrementScript st limitVal defaultLimit now est).1.Allowed = true →
        bucketVal (minuteBucket now)
            (checkLimitAndIncrementScript st limitVal defaultLimit now est).2.buckets
          = bucketVal (minuteBucket now) st.buckets + est
        ∧ windowSum (minuteBucket now - 3600)
            (checkLimitAndIncrementScript st limitVal defaultLimit now est).2.buckets
          = windowSum (minuteBucket now - 3600) st.buckets + est
        ∧ (checkLimitAndIncrementScript st limitVal defaultLimit now est).2.expiry = some 7200)
    ∧ ((checkLimitAndIncrementScript st limitVal defaultLimit now est).1.Allowed = false →
        windowSum (minuteBucket now - 3600)
            (checkLimitAndIncrementScript st limitVal defaultLimit now est).2.buckets
          = windowSum (minuteBucket now - 3600) st.buckets
        ∧ (checkLimitAndIncrementScript st limitVal defaultLimit now est).2.expiry
          = st.expiry) := by
  by_cases hc : windowSum (minuteBucket now - 3600) st.buckets + est ≤ limitVal.getD defaultLimit
  · refine ⟨rfl, rfl, by simp [checkLimitAndIncrementScript, hc], rfl, fun _ => ⟨?_, ?_, ?_⟩,
      fun hfalse => absurd hfalse (by simp [checkLimitAndIncrementScript, hc])⟩
    · simp [checkLimitAndIncrementScript, hc]
      exact (bucketVal_filter _ _ (fun b hb => by simp only [hb, decide_eq_true_eq]; omega) _).trans
        (bucketVal_hincrbyfloat _ _ _)
    · simp [checkLimitAndIncrementScript, hc]
      exact (windowSum_filter _ _ (fun b hb => by simp only [decide_eq_true_eq]; omega) _).trans
        (windowSum_hincrbyfloat _ _ (minuteBucket_cutoff_le now) _ _)
    · simp [checkLimitAndIncrementScript, hc]
  · refine ⟨rfl, rfl, by simp [checkLimitAndIncrementScript, hc], rfl,
      fun htrue => absurd htrue (by simp [checkLimitAndIncrementScript, hc]), fun _ => ⟨?_, ?_⟩⟩
    · simp [checkLimitAndIncrementScript, hc]
      exact windowSum_filter _ _ (fun b hb => by simp only [decide_eq_true_eq]; omega) _
    · simp [checkLimitAndIncrementScript, hc]

/-- Witness for C2 at a concrete input: one bucket of 1 USD in the window,
no stored limit, default 100, estimate 2 at `now = 120`. -/
theorem C2_check_and_reserve_semantics_witness :
    (0 : ℚ) ≤ 2
    ∧ ((checkLimitAndIncrementScript ⟨[(60, 1)], none⟩ none 100 120 2).1.CurrentSpend
          = windowSum (minuteBucket 120 - 3600) [(60, 1)]
        ∧ (checkLimitAndIncrementScript ⟨[(60, 1)], none⟩ none 100 120 2).1.Limit
          = (Option.getD none 100)
        ∧ ((checkLimitAndIncrementScript ⟨[(60, 1)], none⟩ none 100 120 2).1.Allowed = true
          ↔ windowSum (minuteBucket 120 - 3600) [(60, 1)] + 2 ≤ Option.getD none 100)
        ∧ (checkLimitAndIncrementScript ⟨[(60, 1)], none⟩ none 100 120 2).1.Remaining
          = max 0 (Option.getD none 100 - windowSum (minuteBucket 120 - 3600) [(60, 1)])
        ∧ ((checkLimitAndIncrementScript ⟨[(60, 1)], none⟩ none 100 120 2).1.Allowed = true →
            bucketVal (minuteBucket 120)
                (checkLimitAndIncrementScript ⟨[(60, 1)], none⟩ none 100 120 2).2.buckets
              = bucketVal (minuteBucket 120) [(60, 1)] + 2
            ∧ windowSum (minuteBucket 120 - 3600)
                (checkLimitAndIncrementScript ⟨[(60, 1)], none⟩ none 100 120 2).2.buckets
              = windowSum (minuteBucket 120 - 3600) [(60, 1)] + 2
            ∧ (checkLimitAndIncrementScript ⟨[(60, 1)], none⟩ none 100 120 2).2.expiry
              = some 7200)
        ∧ ((checkLimitAndIncrementScript ⟨[(60, 1)], none⟩ none 100 120 2).1.Allowed = false →
            windowSum (minuteBucket 120 - 3600)
                (checkLimitAndIncrementScript ⟨[(60, 1)], none⟩ none 100 120 2).2.buckets
              = windowSum (minuteBucket 120 - 3600) [(60, 1)]
            ∧ (checkLimitAndIncrementScript ⟨[(60, 1)], none⟩ none 100 120 2).2.expiry
              = (none : Option Nat))) :=
  ⟨by norm_num, C2_check_and_reserve_semantics ⟨[(60, 1)], none⟩ none 100 120 2 (by norm_num)⟩

/-- **C5 (counterexample)** — The claim "CheckAndReserve with estimated
cost 0 always returns allowed=true" is false on the code: with a windowed
spend of 200 USD against a limit of 100 USD, a zero-estimate call is
denied, because the script computes `allowed = (currentSpend + 0 <= limit)`
and the current spend already exceeds the limit. -/
theorem C5_zero_estimate_counterexample :
    (checkLimitAndIncrementScript ⟨[(86400, 200)], none⟩ none 100 86400 0).1.Allowed = false := by
  rw [checkScript_denied_eq]
  norm_num [windowSum, minuteBucket]

/-- **C5 (amended)** — For every tenant and bucket/limit state,
CheckAndReserve with estimated cost 0 allows exactly when the windowed
spend does not already exceed the limit (`current_spend ≤ limit`), and in
every case (allow or deny) it produces zero delta to the tenant's windowed
spend sum. -/
theorem C5_zero_estimate_amended (st : SpendState) (limitVal : Option ℚ)
    (defaultLimit : ℚ) (now : RedisNow) :
    ((checkLimitAndIncrementScript st limitVal defaultLimit now 0).1.Allowed = true
      ↔ windowSum (minuteBucket now - 3600) st.buckets ≤ limitVal.getD defaultLimit)
    ∧ windowSum (minuteBucket now - 3600)
        (checkLimitAndIncrementScript st limitVal defaultLimit now 0).2.buckets
      = windowSum (minuteBucket now - 3600) st.buckets := by
  constructor
  · simp [checkLimitAndIncrementScript]
  · by_cases hc : windowSum (minuteBucket now - 3600) st.buckets ≤ limitVal.getD defaultLimit
    · rw [checkScript_allowed_eq st limitVal defaultLimit now 0 (by simpa using hc)]
      exact ((windowSum_filter _ _ (fun b hb => decide_eq_true hb) _).trans
        (windowSum_hincrbyfloat _ _ (minuteBucket_cutoff_le now) _ _)).trans (add_zero _)
    · rw [checkScript_denied_eq st limitVal defaultLimit now 0 (by simpa using hc)]
      exact windowSum_filter _ _ (fun b hb => decide_eq_true hb) _

/-- **C6** — On every denied check-and-reserve call, no bucket cell is
incremented (the post-state hash is exactly the pre-state hash minus the
stale cells outside the window, every in-window cell keeps its value), the
tenant's windowed spend sum is the same before and after the call, and the
expiry is not refreshed. -/
theorem C6_denial_no_net_change (st : SpendState) (limitVal : Option ℚ)
    (defaultLimit : ℚ) (now : RedisNow) (est : ℚ)
    (hdeny : (checkLimitAndIncrementScript st limitVal defaultLimit now est).1.Allowed = false) :
    (checkLimitAndIncrementScript st limitVal defaultLimit now est).2.buckets
        = st.buckets.filter (fun b => decide (minuteBucket now - 3600 ≤ b.1))
    ∧ (∀ f : Int, minuteBucket now - 3600 ≤ f →
        bucketVal f (checkLimitAndIncrementScript st limitVal defaultLimit now est).2.buckets
          = bucketVal f st.buckets)
    ∧ windowSum (minuteBucket now - 3600)
        (checkLimitAndIncrementScript st limitVal defaultLimit now est).2.buckets
      = windowSum (minuteBucket now - 3600) st.buckets
    ∧ (checkLimitAndIncrementScript st limitVal defaultLimit now est).2.expiry = st.expiry := by
  have hc : ¬ (windowSum (minuteBucket now - 3600) st.buckets + est
      ≤ limitVal.getD defaultLimit) := by
    intro h
    rw [checkScript_allowed_eq st limitVal defaultLimit now est h] at hdeny
    exact Bool.true_eq_false.mp hdeny
  rw [checkScript_denied_eq st limitVal defaultLimit now est hc]
  exact ⟨rfl,
    fun f hf => bucketVal_filter _ _ (fun b hb => decide_eq_true (hb ▸ hf)) _,
    windowSum_filter _ _ (fun b hb => decide_eq_true hb) _,
    rfl⟩

/-- Witness for C6 at a concrete input: spend 200 against limit 100 with
estimate 50 is denied, and the deny branch leaves the window untouched. -/
theorem C6_denial_no_net_change_witness :
    (checkLimitAndIncrementScript ⟨[(86400, 200)], none⟩ none 100 86400 50).1.Allowed = false
    ∧ ((checkLimitAndIncrementScript ⟨[(86400, 200)], none⟩ none 100 86400 50).2.buckets
        = List.filter (fun b => decide (minuteBucket 86400 - 3600 ≤ b.1)) [(86400, 200)]
      ∧ (∀ f : Int, minuteBucket 86400 - 3600 ≤ f →
          bucketVal f (checkLimitAndIncrementScript ⟨[(86400, 200)], none⟩ none 100 86400 50).2.buckets
            = bucketVal f [(86400, 200)])
      ∧ windowSum (minuteBucket 86400 - 3600)
          (checkLimitAndIncrementScript ⟨[(86400, 200)], none⟩ none 100 86400 50).2.buckets
        = windowSum (minuteBucket 86400 - 3600) [(86400, 200)]
      ∧ (checkLimitAndIncrementScript ⟨[(86400, 200)], none⟩ none 100 86400 50).2.expiry
        = (none : Option Nat)) :=
  ⟨by rw [checkScript_denied_eq]; norm_num [windowSum, minuteBucket],
   C6_denial_no_net_change ⟨[(86400, 200)], none⟩ none 100 86400 50
     (by rw [checkScript_denied_eq]; norm_num [windowSum, minuteBucket])⟩

/-- **C3** — Fail-open semantics of the accountant, and the nil-receiver
bug.  When the store returns an error, `CheckLimitAndIncrement` returns
`allowed=true, current_spend=0, limit=default, remaining=default` and
leaves the store alone; `AdjustCost` and `RefundEstimate` always return a
nil error (success), whatever the receiver or the store does.  But when the
rate limiter itself is absent (nil `*RateLimiter`), `CheckLimitAndIncrement`
does NOT fail open as the claim states: its fail-open branch reads
`r.defaultLimit` from the nil receiver and panics. -/
theorem C3_fail_open_and_nil_receiver_bug :
    (∀ (rl : RateLimiter) (est : ℚ) (st : SpendState),
        CheckLimitAndIncrement (some rl) est (Store.unreachable st)
          = CheckOutcome.result ⟨true, 0, rl.defaultLimit, rl.defaultLimit⟩ st)
    ∧ (∀ (r : Option RateLimiter) (est actual : ℚ) (store : Store),
        (AdjustCost r est actual store).1 = none
        ∧ (RefundEstimate r est store).1 = none)
    ∧ CheckLimitAndIncrement none 1 (Store.unreachable ⟨[], none⟩)
        = CheckOutcome.panicked := by
  refine ⟨fun rl est st => ?_, fun r est actual store => ⟨?_, ?_⟩, rfl⟩
  · cases h : rl.clientPresent <;> simp [CheckLimitAndIncrement, h, Store.state]
  · cases r with
    | none => rfl
    | some rl => cases h : rl.clientPresent <;> cases store <;>
        simp [AdjustCost, h, Store.state]
  · cases r with
    | none => rfl
    | some rl => cases h : rl.clientPresent <;> cases store <;>
        simp [RefundEstimate, h, Store.state]

/-- **C7 (counterexample)** — The claim "RefundEstimate is scheduled iff no
usage is found and (the body has a top-level error field or the status is
>= 400)" fails on the code for a response whose body is not JSON: with a
reservation attached (tenant `t`, estimate 1) and a 404 response whose body
fails to unmarshal, the handler returns before scheduling anything, even
though no usage was found and the status is >= 400. -/
theorem C7_nonjson_error_counterexample :
    CreateModifyResponse true "t" 1 ⟨1, 1⟩ false 404 none OpenAIParseTokenUsage
        = ModifyOutcome.passthrough
    ∧ ModifyOutcome.passthrough
        ≠ ModifyOutcome.schedule (ReconcilerAction.refundEstimate 1) :=
  ⟨rfl, fun h => ModifyOutcome.noConfusion h⟩

/-- **C7 (amended)** — For every non-streaming upstream response carrying a
reservation whose body was read and parses as a JSON object, exactly one
background task is scheduled and it carries: `AdjustCost(estimate, actual)`
iff the provider found a usage report; `RefundEstimate` iff no usage was
found and the body has a top-level `error` field or the status is >= 400;
a no-op otherwise (the estimate is kept).  A response whose body fails to
read or to parse as JSON schedules nothing at all, whatever its status. -/
theorem C7_reconcile_amended (tenantID : String) (estimate : ℚ) (pricing : Pricing)
    (statusCode : Int) (data : List (String × Json))
    (parseUsage : List (String × Json) → TokenUsage)
    (ht : tenantID ≠ "") (he : estimate ≠ 0) :
    ((parseUsage data).Found = true →
        CreateModifyResponse true tenantID estimate pricing false statusCode (some data) parseUsage
          = ModifyOutcome.schedule (ReconcilerAction.adjustCost estimate
              (CalculateCost (parseUsage data).InputTokens (parseUsage data).OutputTokens pricing)))
    ∧ ((parseUsage data).Found = false →
        (hasField data "error" = true ∨ statusCode ≥ 400) →
        CreateModifyResponse true tenantID estimate pricing false statusCode (some data) parseUsage
          = ModifyOutcome.schedule (ReconcilerAction.refundEstimate estimate))
    ∧ ((parseUsage data).Found = false → hasField data "error" = false → statusCode < 400 →
        CreateModifyResponse true tenantID estimate pricing false statusCode (some data) parseUsage
          = ModifyOutcome.schedule ReconcilerAction.noStoreMutation)
    ∧ (∀ sc : Int, CreateModifyResponse true tenantID estimate pricing false sc none parseUsage
        = ModifyOutcome.passthrough) := by
  refine ⟨fun hf => ?_, fun hf herr => ?_, fun hf herr hsc => ?_, fun sc => ?_⟩
  · simp [CreateModifyResponse, ht, he, hf]
  · rcases herr with herr | hsc
    · simp [CreateModifyResponse, ht, he, hf, herr]
    · simp [CreateModifyResponse, ht, he, hf, hsc]
  · have hsc2 : ¬ (statusCode ≥ 400) := by omega
    simp [CreateModifyResponse, ht, he, hf, herr, hsc2]
  · simp [CreateModifyResponse, ht, he]

/-- Witness for C7 (amended) at a concrete input: tenant `t-ok`, estimate 1,
unit pricing, status 200, body `\x7b"usage": \x7b"prompt_tokens": 2,
"completion_tokens": 3\x7d\x7d`, OpenAI usage parser. -/
theorem C7_reconcile_amended_witness :
    ("t-ok" ≠ "" ∧ (1 : ℚ) ≠ 0)
    ∧ (((OpenAIParseTokenUsage [("usage", Json.obj [("prompt_tokens", Json.num 2), ("completion_tokens", Json.num 3)])]).Found = true →
        CreateModifyResponse true "t-ok" 1 ⟨1, 1⟩ false 200
            (some [("usage", Json.obj [("prompt_tokens", Json.num 2), ("completion_tokens", Json.num 3)])])
            OpenAIParseTokenUsage
          = ModifyOutcome.schedule (ReconcilerAction.adjustCost 1
              (CalculateCost
                (OpenAIParseTokenUsage [("usage", Json.obj [("prompt_tokens", Json.num 2), ("completion_tokens", Json.num 3)])]).InputTokens
                (OpenAIParseTokenUsage [("usage", Json.obj [("prompt_tokens", Json.num 2), ("completion_tokens", Json.num 3)])]).OutputTokens
                ⟨1, 1⟩)))
      ∧ ((OpenAIParseTokenUsage [("usage", Json.obj [("prompt_tokens", Json.num 2), ("completion_tokens", Json.num 3)])]).Found = false →
          (hasField [("usage", Json.obj [("prompt_tokens", Json.num 2), ("completion_tokens", Json.num 3)])] "error" = true ∨ (200 : Int) ≥ 400) →
          CreateModifyResponse true "t-ok" 1 ⟨1, 1⟩ false 200
              (some [("usage", Json.obj [("prompt_tokens", Json.num 2), ("completion_tokens", Json.num 3)])])
              OpenAIParseTokenUsage
            = ModifyOutcome.schedule (ReconcilerAction.refundEstimate 1))
      ∧ ((OpenAIParseTokenUsage [("usage", Json.obj [("prompt_tokens", Json.num 2), ("completion_tokens", Json.num 3)])]).Found = false →
          hasField [("usage", Json.obj [("prompt_tokens", Json.num 2), ("completion_tokens", Json.num 3)])] "error" = false → (200 : Int) < 400 →
          CreateModifyResponse true "t-ok" 1 ⟨1, 1⟩ false 200
              (some [("usage", Json.obj [("prompt_tokens", Json.num 2), ("completion_tokens", Json.num 3)])])
              OpenAIParseTokenUsage
            = ModifyOutcome.schedule ReconcilerAction.noStoreMutation)
      ∧ (∀ sc : Int, CreateModifyResponse true "t-ok" 1 ⟨1, 1⟩ false sc none OpenAIParseTokenUsage
          = ModifyOutcome.passthrough)) :=
  ⟨⟨by decide, by norm_num⟩,
   C7_reconcile_amended "t-ok" 1 ⟨1, 1⟩ 200
     [("usage", Json.obj [("prompt_tokens", Json.num 2), ("completion_tokens", Json.num 3)])]
     OpenAIParseTokenUsage (by decide) (by norm_num)⟩

/-- **C10** — For every upstream response whose request context carries no
tenant ID or an estimated cost equal to 0, the response reconciler returns
immediately: the body is not wrapped and no `AdjustCost` or
`RefundEstimate` is scheduled, whatever the limiter, pricing, content type,
status, body or usage parser. -/
theorem C10_no_reservation_passthrough (limiterPresent : Bool) (tenantID : String)
    (estimate : ℚ) (pricing : Pricing) (isStreaming : Bool) (statusCode : Int)
    (bodyParse : BodyParse) (parseUsage : List (String × Json) → TokenUsage)
    (h : tenantID = "" ∨ estimate = 0) :
    CreateModifyResponse limiterPresent tenantID estimate pricing isStreaming
        statusCode bodyParse parseUsage = ModifyOutcome.passthrough := by
  cases limiterPresent with
  | false => rfl
  | true => simp [CreateModifyResponse, h]

/-- Witness for C10 at a concrete input: the empty tenant ID with a
non-zero estimate. -/
theorem C10_no_reservation_passthrough_witness :
    (("" : String) = "" ∨ (2 : ℚ) = 0)
    ∧ CreateModifyResponse true "" 2 ⟨1, 1⟩ false 200 none OpenAIParseTokenUsage
        = ModifyOutcome.passthrough :=
  ⟨Or.inl rfl,
   C10_no_reservation_passthrough true "" 2 ⟨1, 1⟩ false 200 none OpenAIParseTokenUsage
     (Or.inl rfl)⟩

/-- **C9** — A response whose `usage` object reports `input_tokens = 0` and
`output_tokens = 0` (or whose token fields are absent) yields
`Found = false` from `ParseTokenUsage`; consequently the reconciler never
schedules an `AdjustCost` for such a response — it schedules a refund when
the response is an error (top-level `error` field or status >= 400) and a
no-op (estimate kept) otherwise, instead of adjusting the charged cost to
zero. -/
theorem C9_zero_usage_not_found (usage rest : List (String × Json))
    (tenantID : String) (estimate : ℚ) (pricing : Pricing) (statusCode : Int)
    (hin : getField usage "input_tokens" = some (Json.num 0)
      ∨ getField usage "input_tokens" = none)
    (hout : getField usage "output_tokens" = some (Json.num 0)
      ∨ getField usage "output_tokens" = none)
    (ht : tenantID ≠ "") (he : estimate ≠ 0) :
    (ParseTokenUsage (("usage", Json.obj usage) :: rest)).Found = false
    ∧ (∀ (est2 act : ℚ),
        CreateModifyResponse true tenantID estimate pricing false statusCode
            (some (("usage", Json.obj usage) :: rest)) ParseTokenUsage
          ≠ ModifyOutcome.schedule (ReconcilerAction.adjustCost est2 act))
    ∧ ((hasField (("usage", Json.obj usage) :: rest) "error" = true ∨ statusCode ≥ 400) →
        CreateModifyResponse true tenantID estimate pricing false statusCode
            (some (("usage", Json.obj usage) :: rest)) ParseTokenUsage
          = ModifyOutcome.schedule (ReconcilerAction.refundEstimate estimate))
    ∧ (hasField (("usage", Json.obj usage) :: rest) "error" = false → statusCode < 400 →
        CreateModifyResponse true tenantID estimate pricing false statusCode
            (some (("usage", Json.obj usage) :: rest)) ParseTokenUsage
          = ModifyOutcome.schedule ReconcilerAction.noStoreMutation) := by
  have hzero : goIntCast 0 = 0 := by decide
  have hfin : tokenField usage "input_tokens" = 0 := by
    rcases hin with h | h <;> simp [tokenField, h, hzero]
  have hfout : tokenField usage "output_tokens" = 0 := by
    rcases hout with h | h <;> simp [tokenField, h, hzero]
  have hu : getField (("usage", Json.obj usage) :: rest) "usage" = some (Json.obj usage) := by
    simp [getField]
  have hFound : (ParseTokenUsage (("usage", Json.obj usage) :: rest)).Found = false := by
    simp [ParseTokenUsage, hu, hfin, hfout]
  refine ⟨hFound, fun est2 act h => ?_, fun herr => ?_, fun herr hsc => ?_⟩
  · by_cases he2 : hasField (("usage", Json.obj usage) :: rest) "error" = true
    · simp [CreateModifyResponse, ht, he, hFound, he2] at h
    · by_cases hs : (400 : Int) ≤ statusCode
      · simp [CreateModifyResponse, ht, he, hFound, hs] at h
      · simp only [Bool.not_eq_true] at he2
        simp [CreateModifyResponse, ht, he, hFound, he2, hs] at h
  · rcases herr with he2 | hs
    · simp [CreateModifyResponse, ht, he, hFound, he2]
    · simp [CreateModifyResponse, ht, he, hFound, hs]
  · have hs : ¬ ((400 : Int) ≤ statusCode) := by omega
    simp [CreateModifyResponse, ht, he, hFound, herr, hs]

/-- Witness for C9 at a concrete input: a 200 response whose usage object
reports zero input and output tokens. -/
theorem C9_zero_usage_not_found_witness :
    ((getField [("input_tokens", Json.num 0), ("output_tokens", Json.num 0)] "input_tokens"
        = some (Json.num 0)
      ∨ getField [("input_tokens", Json.num 0), ("output_tokens", Json.num 0)] "input_tokens"
        = none)
    ∧ (getField [("input_tokens", Json.num 0), ("output_tokens", Json.num 0)] "output_tokens"
        = some (Json.num 0)
      ∨ getField [("input_tokens", Json.num 0), ("output_tokens", Json.num 0)] "output_tokens"
        = none)
    ∧ "t-zero" ≠ "" ∧ (1 : ℚ) ≠ 0)
    ∧ ((ParseTokenUsage [("usage", Json.obj [("input_tokens", Json.num 0), ("output_tokens", Json.num 0)])]).Found = false
      ∧ (∀ (est2 act : ℚ),
          CreateModifyResponse true "t-zero" 1 ⟨1, 1⟩ false 200
              (some [("usage", Json.obj [("input_tokens", Json.num 0), ("output_tokens", Json.num 0)])])
              ParseTokenUsage
            ≠ ModifyOutcome.schedule (ReconcilerAction.adjustCost est2 act))
      ∧ ((hasField [("usage", Json.obj [("input_tokens", Json.num 0), ("output_tokens", Json.num 0)])] "error" = true
            ∨ (200 : Int) ≥ 400) →
          CreateModifyResponse true "t-zero" 1 ⟨1, 1⟩ false 200
              (some [("usage", Json.obj [("input_tokens", Json.num 0), ("output_tokens", Json.num 0)])])
              ParseTokenUsage
            = ModifyOutcome.schedule (ReconcilerAction.refundEstimate 1))
      ∧ (hasField [("usage", Json.obj [("input_tokens", Json.num 0), ("output_tokens", Json.num 0)])] "error" = false
          → (200 : Int) < 400 →
          CreateModifyResponse true "t-zero" 1 ⟨1, 1⟩ false 200
              (some [("usage", Json.obj [("input_tokens", Json.num 0), ("output_tokens", Json.num 0)])])
              ParseTokenUsage
            = ModifyOutcome.schedule ReconcilerAction.noStoreMutation)) :=
  ⟨⟨Or.inl rfl, Or.inl rfl, by decide, by norm_num⟩,
   C9_zero_usage_not_found [("input_tokens", Json.num 0), ("output_tokens", Json.num 0)] []
     "t-zero" 1 ⟨1, 1⟩ 200 (Or.inl rfl) (Or.inl rfl) (by decide) (by norm_num)⟩

/-! ### Helper lemmas for the output-token estimate -/

theorem goIntCast_intCast_nonneg (n : ℤ) (hn : 0 ≤ n) : goIntCast (n : ℚ) = n := by
  have h0 : (0 : ℚ) ≤ (n : ℚ) := by exact_mod_cast hn
  simp only [goIntCast, if_pos h0]
  rw [Rat.floor_def']
  simp

theorem goIntCast_nonneg (q : ℚ) (hq : 0 ≤ q) : 0 ≤ goIntCast q := by
  simp only [goIntCast, if_pos hq]
  exact Rat.le_floor.mpr (by exact_mod_cast hq)

theorem positiveNumField_some_elim (data : List (String × Json)) (k : String) (t : Int)
    (h : positiveNumField data k = some t) :
    ∃ q : ℚ, getField data k = some (Json.num q) ∧ 0 < q ∧ goIntCast q = t := by
  unfold positiveNumField at h
  split at h
  next q heq =>
    split at h
    next hq => exact ⟨q, heq, hq, by injection h⟩
    next => exact absurd h (by simp)
  next => exact absurd h (by simp)

theorem positiveNumField_some_pos (data : List (String × Json)) (k : String) (t : Int)
    (h : positiveNumField data k = some t)
    (hI : ∀ q : ℚ, getField data k = some (Json.num q) → ∃ n : ℤ, q = n) : 0 < t := by
  obtain ⟨q, heq, hq, hgc⟩ := positiveNumField_some_elim data k t h
  obtain ⟨n, hn⟩ := hI q heq
  subst hn
  have h0 : 0 < n := by exact_mod_cast hq
  rw [← hgc, goIntCast_intCast_nonneg n (le_of_lt h0)]
  exact h0

theorem positiveNumField_some_carries (data : List (String × Json)) (k : String) (t : Int)
    (h : positiveNumField data k = some t) : numFieldPositive data k := by
  obtain ⟨q, heq, hq, _⟩ := positiveNumField_some_elim data k t h
  exact ⟨q, heq, hq⟩

theorem positiveNumField_none_elim (data : List (String × Json)) (k : String)
    (h : positiveNumField data k = none) : ¬ numFieldPositive data k := by
  rintro ⟨q, heq, hq⟩
  unfold positiveNumField at h
  rw [heq] at h
  simp [hq] at h

theorem estimateOutput_with_max (inputTokens m : Int) (hm : 0 < m) :
    EstimateOutputTokens inputTokens m = min m 4096 := by
  simp only [EstimateOutputTokens, MaxOutputEstimate, MinOutputEstimate, OutputMultiplier,
    if_pos hm]
  split <;> omega

theorem estimateOutput_no_max (inputTokens : Int) :
    EstimateOutputTokens inputTokens 0 = max 100 (min (inputTokens * 10) 4096) := by
  simp only [EstimateOutputTokens, MaxOutputEstimate, MinOutputEstimate, OutputMultiplier]
  norm_num
  split
  · omega
  · split <;> omega

/-- **C8** — For every request body whose explicit token-maximum fields (if
present) carry integral values, and every input token count: the body
carries a positive explicit maximum in `max_tokens`,
`max_completion_tokens`, or `generationConfig.maxOutputTokens` exactly when
the extractor returns a positive maximum; in that case the output-token
estimate equals that maximum capped at 4096; otherwise the estimate equals
`input_tokens * 10` clamped to `[100, 4096]`. -/
theorem C8_output_token_estimate (data : List (String × Json)) (inputTokens : Int)
    (hI : maxFieldsIntegral data) :
    0 ≤ ExtractMaxOutputTokens data
    ∧ (carriesPositiveMax data ↔ 0 < ExtractMaxOutputTokens data)
    ∧ (0 < ExtractMaxOutputTokens data →
        EstimateOutputTokens inputTokens (ExtractMaxOutputTokens data)
          = min (ExtractMaxOutputTokens data) 4096)
    ∧ (ExtractMaxOutputTokens data = 0 →
        EstimateOutputTokens inputTokens (ExtractMaxOutputTokens data)
          = max 100 (min (inputTokens * 10) 4096)) := by
  obtain ⟨hI1, hI2, hI3⟩ := hI
  have main : 0 ≤ ExtractMaxOutputTokens data
      ∧ (carriesPositiveMax data ↔ 0 < ExtractMaxOutputTokens data) := by
    cases e1 : positiveNumField data "max_tokens" with
    | some t1 =>
      have hpos : 0 < t1 := positiveNumField_some_pos data _ t1 e1 hI1
      have hx : ExtractMaxOutputTokens data = t1 := by
        simp [ExtractMaxOutputTokens, e1]
      rw [hx]
      exact ⟨le_of_lt hpos, iff_of_true
        (Or.inl (positiveNumField_some_carries data _ t1 e1)) hpos⟩
    | none =>
      cases e2 : positiveNumField data "max_completion_tokens" with
      | some t2 =>
        have hpos : 0 < t2 := positiveNumField_some_pos data _ t2 e2 hI2
        have hx : ExtractMaxOutputTokens data = t2 := by
          simp [ExtractMaxOutputTokens, e1, e2]
        rw [hx]
        exact ⟨le_of_lt hpos, iff_of_true
          (Or.inr (Or.inl (positiveNumField_some_carries data _ t2 e2))) hpos⟩
      | none =>
        cases e3 : getField data "generationConfig" with
        | none =>
          have hx : ExtractMaxOutputTokens data = 0 := by
            simp [ExtractMaxOutputTokens, e1, e2, e3]
          rw [hx]
          refine ⟨le_refl 0, iff_of_false ?_ (by omega)⟩
          rintro (h | h | ⟨config, hcfg, h⟩)
          · exact positiveNumField_none_elim data _ e1 h
          · exact positiveNumField_none_elim data _ e2 h
          · rw [e3] at hcfg; exact Option.noConfusion hcfg
        | some j =>
          cases j with
          | obj config =>
            cases e4 : positiveNumField config "maxOutputTokens" with
            | some t3 =>
              have hpos : 0 < t3 :=
                positiveNumField_some_pos config _ t3 e4 (fun q hq => hI3 config q e3 hq)
              have hx : ExtractMaxOutputTokens data = t3 := by
                simp [ExtractMaxOutputTokens, e1, e2, e3, e4]
              rw [hx]
              exact ⟨le_of_lt hpos, iff_of_true
                (Or.inr (Or.inr ⟨config, e3,
                  positiveNumField_some_carries config _ t3 e4⟩)) hpos⟩
            | none =>
              have hx : ExtractMaxOutputTokens data = 0 := by
                simp [ExtractMaxOutputTokens, e1, e2, e3, e4]
              rw [hx]
              refine ⟨le_refl 0, iff_of_false ?_ (by omega)⟩
              rintro (h | h | ⟨config2, hcfg, h⟩)
              · exact positiveNumField_none_elim data _ e1 h
              · exact positiveNumField_none_elim data _ e2 h
              · rw [e3] at hcfg
                obtain rfl : config = config2 := Json.obj.inj (Option.some.inj hcfg)
                exact positiveNumField_none_elim config _ e4 h
          | null =>
            have hx : ExtractMaxOutputTokens data = 0 := by
              simp [ExtractMaxOutputTokens, e1, e2, e3]
            rw [hx]
            refine ⟨le_refl 0, iff_of_false ?_ (by omega)⟩
            rintro (h | h | ⟨config2, hcfg, h⟩)
            · exact positiveNumField_none_elim data _ e1 h
            · exact positiveNumField_none_elim data _ e2 h
            · rw [e3] at hcfg; exact Json.noConfusion (Option.some.inj hcfg)
          | bool b =>
            have hx : ExtractMaxOutputTokens data = 0 := by
              simp [ExtractMaxOutputTokens, e1, e2, e3]
            rw [hx]
            refine ⟨le_refl 0, iff_of_false ?_ (by omega)⟩
            rintro (h | h | ⟨config2, hcfg, h⟩)
            · exact positiveNumField_none_elim data _ e1 h
            · exact positiveNumField_none_elim data _ e2 h
            · rw [e3] at hcfg; exact Json.noConfusion (Option.some.inj hcfg)
          | num q =>
            have hx : ExtractMaxOutputTokens data = 0 := by
              simp [ExtractMaxOutputTokens, e1, e2, e3]
            rw [hx]
            refine ⟨le_refl 0, iff_of_false ?_ (by omega)⟩
            rintro (h | h | ⟨config2, hcfg, h⟩)
            · exact positiveNumField_none_elim data _ e1 h
            · exact positiveNumField_none_elim data _ e2 h
            · rw [e3] at hcfg; exact Json.noConfusion (Option.some.inj hcfg)
          | str s =>
            have hx : ExtractMaxOutputTokens data = 0 := by
              simp [ExtractMaxOutputTokens, e1, e2, e3]
            rw [hx]
            refine ⟨le_refl 0, iff_of_false ?_ (by omega)⟩
            rintro (h | h | ⟨config2, hcfg, h⟩)
            · exact positiveNumField_none_elim data _ e1 h
            · exact positiveNumField_none_elim data _ e2 h
            · rw [e3] at hcfg; exact Json.noConfusion (Option.some.inj hcfg)
          | arr xs =>
            have hx : ExtractMaxOutputTokens data = 0 := by
              simp [ExtractMaxOutputTokens, e1, e2, e3]
            rw [hx]
            refine ⟨le_refl 0, iff_of_false ?_ (by omega)⟩
            rintro (h | h | ⟨config2, hcfg, h⟩)
            · exact positiveNumField_none_elim data _ e1 h
            · exact positiveNumField_none_elim data _ e2 h
            · rw [e3] at hcfg; exact Json.noConfusion (Option.some.inj hcfg)
  refine ⟨main.1, main.2, fun hpos => estimateOutput_with_max inputTokens _ hpos,
    fun hzero => by rw [hzero]; exact estimateOutput_no_max inputTokens⟩

/-- Witness for C8 at a concrete input: a body with `max_tokens = 5000` and
7 input tokens (the estimate is the maximum capped at 4096). -/
theorem C8_output_token_estimate_witness :
    maxFieldsIntegral [("max_tokens", Json.num 5000)]
    ∧ (0 ≤ ExtractMaxOutputTokens [("max_tokens", Json.num 5000)]
      ∧ (carriesPositiveMax [("max_tokens", Json.num 5000)]
          ↔ 0 < ExtractMaxOutputTokens [("max_tokens", Json.num 5000)])
      ∧ (0 < ExtractMaxOutputTokens [("max_tokens", Json.num 5000)] →
          EstimateOutputTokens 7 (ExtractMaxOutputTokens [("max_tokens", Json.num 5000)])
            = min (ExtractMaxOutputTokens [("max_tokens", Json.num 5000)]) 4096)
      ∧ (ExtractMaxOutputTokens [("max_tokens", Json.num 5000)] = 0 →
          EstimateOutputTokens 7 (ExtractMaxOutputTokens [("max_tokens", Json.num 5000)])
            = max 100 (min (7 * 10) 4096))) :=
  ⟨⟨fun q hq => ⟨5000, by injection (Option.some.inj hq) with hj; rw [← hj]; norm_num⟩,
    fun q hq => by exact absurd hq (by simp [getField]),
    fun config q hcfg _ => by exact absurd hcfg (by simp [getField])⟩,
   C8_output_token_estimate [("max_tokens", Json.num 5000)] 7
     ⟨fun q hq => ⟨5000, by injection (Option.some.inj hq) with hj; rw [← hj]; norm_num⟩,
      fun q hq => by exact absurd hq (by simp [getField]),
      fun config q hcfg _ => by exact absurd hcfg (by simp [getField])⟩⟩

/-- **C4** — Gemini hint injection.  For the request body
`\x7b"contents":[\x7b"parts":[\x7b"text":"X"\x7d]\x7d]\x7d` and any
non-empty hint, `InjectHint` succeeds and prepends the part
`\x7btext: hint\x7d` to `contents[0].parts`: the forwarded body has
`parts[0].text` equal to the hint and `parts[1].text = "X"`, and the
middleware sets `Content-Length` to the length of the re-serialized
body. -/
theorem C4_gemini_hint_injection (hint : String) (hhint : hint ≠ "") :
    InjectHint geminiScenarioBody hint = (true, geminiScenarioInjected hint)
    ∧ loopDetectInjectStep geminiScenarioBody hint
        = some (geminiScenarioInjected hint,
            (marshal (Json.obj (geminiScenarioInjected hint))).length)
    ∧ partText (geminiScenarioInjected hint) 0 = some hint
    ∧ partText (geminiScenarioInjected hint) 1 = some "X" := by
  have hinj : InjectHint geminiScenarioBody hint = (true, geminiScenarioInjected hint) := by
    simp [InjectHint, geminiScenarioBody, geminiScenarioInjected, getField, setField, hhint]
  refine ⟨hinj, ?_, rfl, rfl⟩
  simp [loopDetectInjectStep, hinj]

/-- Witness for C4 at the configured default hint. -/
theorem C4_gemini_hint_injection_witness :
    defaultHint ≠ ""
    ∧ (InjectHint geminiScenarioBody defaultHint = (true, geminiScenarioInjected defaultHint)
      ∧ loopDetectInjectStep geminiScenarioBody defaultHint
          = some (geminiScenarioInjected defaultHint,
              (marshal (Json.obj (geminiScenarioInjected defaultHint))).length)
      ∧ partText (geminiScenarioInjected defaultHint) 0 = some defaultHint
      ∧ partText (geminiScenarioInjected defaultHint) 1 = some "X") :=
  ⟨by decide, C4_gemini_hint_injection defaultHint (by decide)⟩

set_option maxRecDepth 40000 in
/-- **C1 (code bug)** — The streaming reader does not finalize exactly once.
On the SSE stream of scenario 5 (`data: \x7b"usage": ...\x7d` then
`data: [DONE]`), the `[DONE]` frame triggers `finalizeCost` — scheduling one
`AdjustCost` — but does not set the `finalized` flag; the subsequent EOF
(or `Close`) therefore finalizes again and schedules a second `AdjustCost`
store mutation, where the claim (and the spec) requires the second
finalization to be a no-op.  A `Close` after EOF is correctly a no-op (the
flag is set on those paths); only the `[DONE]` path misses it. -/
theorem C1_double_finalization_after_done :
    (runStream scenario5Cfg [StreamEvent.chunk scenario5Bytes]).scheduled.map isAdjustCost
        = [true]
    ∧ (runStream scenario5Cfg [StreamEvent.chunk scenario5Bytes]).finalized = false
    ∧ (runStream scenario5Cfg [StreamEvent.chunk scenario5Bytes, StreamEvent.eof]).scheduled.map
        isAdjustCost = [true, true]
    ∧ (runStream scenario5Cfg [StreamEvent.chunk scenario5Bytes, StreamEvent.close]).scheduled.map
        isAdjustCost = [true, true]
    ∧ (runStream scenario5Cfg [StreamEvent.chunk scenario5Bytes, StreamEvent.eof,
        StreamEvent.close]).scheduled.map isAdjustCost = [true, true] := by
  decide

end AgentSentinel
